import Mathlib

/-!
Shallow embedding of the `split_payment` ink! contract
(`src/split_payment/lib.rs`) and verification of its specification.

`AccountId` is modelled as `Nat` (the all-zero account id is `0`),
`Balance` (`u128`) as `Nat` with explicit saturation at `2^128 - 1`,
`total_shares` (`u8`) as `Nat` with saturation at `255`, and timestamps
(`u64`) as `Nat`.  The two `ink::storage::Mapping` fields are modelled as
functions into `Option`/`Bool`.  Every message returns the ink! `Result`
(here `Except Error Unit`) together with the post-state; operations that
perform an external transfer take the transfer outcome as an explicit
boolean oracle, since the environment's `transfer` is outside the core.
-/

namespace SplitPay

abbrev AccountId := Nat

abbrev Balance := Nat

/-- Maximum value of `u128`; `Balance` arithmetic saturates here. -/
def U128MAX : Nat := 2 ^ 128 - 1

/-- `u128::saturating_add`. -/
def satAdd128 (a b : Nat) : Nat := min (a + b) U128MAX

/-- `u128::saturating_mul`. -/
def satMul128 (a b : Nat) : Nat := min (a * b) U128MAX

/-- `u8::saturating_add`. -/
def satAdd8 (a b : Nat) : Nat := min (a + b) 255

/-- Error enum of the contract (`lib.rs` lines 14-33). -/
inductive Error where
  | Unauthorized
  | InsufficientBalance
  | InsufficientAllowance
  | InvalidBeneficiary
  | InvalidShare
  | NoFundsAvailable
  | TransferFailed
  | BeneficiaryNotFound
  | ContractPaused
deriving DecidableEq

instance : DecidableEq (Except Error Unit) := fun x y =>
  match x, y with
  | .ok (), .ok () => isTrue rfl
  | .ok (), .error _ => isFalse fun h => Except.noConfusion h
  | .error _, .ok () => isFalse fun h => Except.noConfusion h
  | .error a, .error b =>
    if h : a = b then isTrue (h ▸ rfl) else isFalse fun hh => h (Except.noConfusion hh id)

/-- A beneficiary record (`lib.rs` lines 41-46). -/
structure Beneficiary where
  account : AccountId
  share_percentage : Nat
  pending_balance : Balance
  total_withdrawn : Balance
deriving DecidableEq

/-- An approval record (`lib.rs` lines 51-55). -/
structure Approval where
  spender : AccountId
  amount : Balance
  expires_at : Option Nat
deriving DecidableEq

/-- The contract storage (`lib.rs` lines 57-77). -/
structure SplitPayment where
  owner : AccountId
  managers : AccountId → Bool
  beneficiaries : List Beneficiary
  total_shares : Nat
  approvals : AccountId → AccountId → Option Approval
  allowances : AccountId → Balance
  paused : Bool
  total_received : Balance
  total_distributed : Balance

/-- Point update of the approvals mapping (`Mapping::insert`). -/
def approvalsInsert (m : AccountId → AccountId → Option Approval)
    (k1 k2 : AccountId) (v : Approval) : AccountId → AccountId → Option Approval :=
  fun a b => if a = k1 ∧ b = k2 then some v else m a b

/-- Point removal from the approvals mapping (`Mapping::remove`). -/
def approvalsRemove (m : AccountId → AccountId → Option Approval)
    (k1 k2 : AccountId) : AccountId → AccountId → Option Approval :=
  fun a b => if a = k1 ∧ b = k2 then none else m a b

/-- `managers.insert(m, &true)`. -/
def managersInsert (m : AccountId → Bool) (k : AccountId) : AccountId → Bool :=
  fun a => if a = k then true else m a

/-- `managers.remove(m)`: subsequent `get(..).unwrap_or(false)` yields `false`. -/
def managersRemove (m : AccountId → Bool) (k : AccountId) : AccountId → Bool :=
  fun a => if a = k then false else m a

/-- Constructor `new` (`lib.rs` lines 168-182): the environment caller becomes owner. -/
def new (caller : AccountId) : SplitPayment where
  owner := caller
  managers := fun _ => false
  beneficiaries := []
  total_shares := 0
  approvals := fun _ _ => none
  allowances := fun _ => 0
  paused := false
  total_received := 0
  total_distributed := 0

/-- `ensure_not_paused` (`lib.rs` lines 569-575). -/
def ensure_not_paused (s : SplitPayment) : Except Error Unit :=
  if s.paused then .error .ContractPaused else .ok ()

/-- `ensure_owner` (`lib.rs` lines 550-556); the caller is explicit. -/
def ensure_owner (s : SplitPayment) (caller : AccountId) : Except Error Unit :=
  if caller = s.owner then .ok () else .error .Unauthorized

/-- `ensure_manager_or_owner` (`lib.rs` lines 559-566). -/
def ensure_manager_or_owner (s : SplitPayment) (caller : AccountId) : Except Error Unit :=
  if caller = s.owner ∨ s.managers caller = true then .ok () else .error .Unauthorized

/-- `Iterator::position` over the beneficiaries vector. -/
def position (p : Beneficiary → Bool) : List Beneficiary → Option Nat
  | [] => none
  | b :: rest => if p b then some 0 else (position p rest).map (· + 1)

/-- Indexing `self.beneficiaries[i]` (always used at an index returned by
`position`, hence in bounds). -/
def getBen (l : List Beneficiary) (i : Nat) : Beneficiary :=
  l.getD i ⟨0, 0, 0, 0⟩

/-- Per-beneficiary share in `distribute_funds`:
`amount.saturating_mul(share as u128).saturating_div(100)`. -/
def shareAmount (amount : Balance) (share : Nat) : Balance :=
  satMul128 amount share / 100

/-- `distribute_funds` (`lib.rs` lines 526-547). -/
def distribute_funds (s : SplitPayment) (amount : Balance) :
    Except Error Unit × SplitPayment :=
  if s.beneficiaries.isEmpty ∨ s.total_shares = 0 then (.ok (), s)
  else
    (.ok (), { s with
      beneficiaries := s.beneficiaries.map fun b =>
        { b with pending_balance := satAdd128 b.pending_balance (shareAmount amount b.share_percentage) }
      total_distributed := satAdd128 s.total_distributed amount })

/-- `receive_payment` (`lib.rs` lines 185-204); `amount` is the transferred value. -/
def receive_payment (s : SplitPayment) (_caller : AccountId) (amount : Balance) :
    Except Error Unit × SplitPayment :=
  match ensure_not_paused s with
  | .error e => (.error e, s)
  | .ok _ =>
    let s1 := { s with total_received := satAdd128 s.total_received amount }
    match distribute_funds s1 amount with
    | (.error e, s2) => (.error e, s2)
    | (.ok _, s2) => (.ok (), s2)

/-- `add_beneficiary` (`lib.rs` lines 207-242). -/
def add_beneficiary (s : SplitPayment) (caller account : AccountId)
    (share_percentage : Nat) : Except Error Unit × SplitPayment :=
  match ensure_not_paused s with
  | .error e => (.error e, s)
  | .ok _ =>
  match ensure_manager_or_owner s caller with
  | .error e => (.error e, s)
  | .ok _ =>
  if account = 0 then (.error .InvalidBeneficiary, s)
  else if share_percentage = 0 ∨ satAdd8 s.total_shares share_percentage > 100 then
    (.error .InvalidShare, s)
  else if s.beneficiaries.any (fun b => b.account == account) then
    (.error .InvalidBeneficiary, s)
  else
    (.ok (), { s with
      beneficiaries := s.beneficiaries ++ [⟨account, share_percentage, 0, 0⟩]
      total_shares := satAdd8 s.total_shares share_percentage })

/-- `remove_beneficiary` (`lib.rs` lines 245-270); `xferOk` is the outcome of
the environment transfer of the pending balance (attempted only when it is
positive; on failure the removal is already committed). -/
def remove_beneficiary (s : SplitPayment) (caller account : AccountId)
    (xferOk : Bool) : Except Error Unit × SplitPayment :=
  match ensure_not_paused s with
  | .error e => (.error e, s)
  | .ok _ =>
  match ensure_manager_or_owner s caller with
  | .error e => (.error e, s)
  | .ok _ =>
  match position (fun b => b.account == account) s.beneficiaries with
  | none => (.error .BeneficiaryNotFound, s)
  | some i =>
    let b := getBen s.beneficiaries i
    let s1 := { s with
      beneficiaries := s.beneficiaries.eraseIdx i
      total_shares := s.total_shares - b.share_percentage }
    if b.pending_balance > 0 ∧ xferOk = false then (.error .TransferFailed, s1)
    else (.ok (), s1)

/-- `approve` (`lib.rs` lines 273-299). -/
def approve (s : SplitPayment) (caller spender : AccountId) (amount : Balance)
    (expires_at : Option Nat) : Except Error Unit × SplitPayment :=
  match ensure_not_paused s with
  | .error e => (.error e, s)
  | .ok _ =>
  if s.beneficiaries.any (fun b => b.account == caller) then
    (.ok (), { s with approvals := approvalsInsert s.approvals caller spender ⟨spender, amount, expires_at⟩ })
  else (.error .Unauthorized, s)

/-- `revoke_approval` (`lib.rs` lines 302-314).  Note: the source performs no
pause check here. -/
def revoke_approval (s : SplitPayment) (caller spender : AccountId) :
    Except Error Unit × SplitPayment :=
  (.ok (), { s with approvals := approvalsRemove s.approvals caller spender })

/-- A transfer request issued to the environment, recording the recipient and
amount of a `self.env().transfer(to, amount)` call. -/
structure TransferRequest where
  recipient : AccountId
  amount : Balance
deriving DecidableEq

/-- `withdraw_from` (`lib.rs` lines 317-375); `now` is `block_timestamp()`,
`xferOk` the environment's outcome for the final transfer.  Besides the ink!
result and the post-state, the embedding returns the transfer requests issued
to the environment: on the path reaching `lib.rs` line 365 this is exactly one
request paying `amount` to the caller — the spender, not the beneficiary. -/
def withdraw_from (s : SplitPayment) (caller beneficiary : AccountId)
    (amount : Balance) (now : Nat) (xferOk : Bool) :
    Except Error Unit × SplitPayment × List TransferRequest :=
  match ensure_not_paused s with
  | .error e => (.error e, s, [])
  | .ok _ =>
  match s.approvals beneficiary caller with
  | none => (.error .InsufficientAllowance, s, [])
  | some approval =>
    if (match approval.expires_at with
        | some e => decide (now > e)
        | none => false) then (.error .InsufficientAllowance, s, [])
    else if approval.amount < amount then (.error .InsufficientAllowance, s, [])
    else
      match position (fun b => b.account == beneficiary) s.beneficiaries with
      | none => (.error .BeneficiaryNotFound, s, [])
      | some i =>
        let b := getBen s.beneficiaries i
        if b.pending_balance < amount then (.error .InsufficientBalance, s, [])
        else
          let b1 := { b with pending_balance := b.pending_balance - amount,
                             total_withdrawn := satAdd128 b.total_withdrawn amount }
          let s1 := { s with beneficiaries := s.beneficiaries.set i b1 }
          let newAmount := approval.amount - amount
          let ap1 := { approval with amount := newAmount }
          let s2 := if newAmount = 0 then
              { s1 with approvals := approvalsRemove s1.approvals beneficiary caller }
            else
              { s1 with approvals := approvalsInsert s1.approvals beneficiary caller ap1 }
          if xferOk then (.ok (), s2, [⟨caller, amount⟩])
          else (.error .TransferFailed, s2, [⟨caller, amount⟩])

/-- `withdraw` (`lib.rs` lines 378-401); `xferOk` the outcome of the transfer
to the caller. -/
def withdraw (s : SplitPayment) (caller : AccountId) (amount : Balance)
    (xferOk : Bool) : Except Error Unit × SplitPayment :=
  match ensure_not_paused s with
  | .error e => (.error e, s)
  | .ok _ =>
  match position (fun b => b.account == caller) s.beneficiaries with
  | none => (.error .Unauthorized, s)
  | some i =>
    let b := getBen s.beneficiaries i
    if b.pending_balance < amount then (.error .InsufficientBalance, s)
    else
      let b1 := { b with pending_balance := b.pending_balance - amount,
                         total_withdrawn := satAdd128 b.total_withdrawn amount }
      let s1 := { s with beneficiaries := s.beneficiaries.set i b1 }
      if xferOk then (.ok (), s1) else (.error .TransferFailed, s1)

/-- `add_manager` (`lib.rs` lines 404-416). -/
def add_manager (s : SplitPayment) (caller manager : AccountId) :
    Except Error Unit × SplitPayment :=
  match ensure_owner s caller with
  | .error e => (.error e, s)
  | .ok _ => (.ok (), { s with managers := managersInsert s.managers manager })

/-- `remove_manager` (`lib.rs` lines 419-431). -/
def remove_manager (s : SplitPayment) (caller manager : AccountId) :
    Except Error Unit × SplitPayment :=
  match ensure_owner s caller with
  | .error e => (.error e, s)
  | .ok _ => (.ok (), { s with managers := managersRemove s.managers manager })

/-- `pause` (`lib.rs` lines 434-444). -/
def pause (s : SplitPayment) (caller : AccountId) :
    Except Error Unit × SplitPayment :=
  match ensure_owner s caller with
  | .error e => (.error e, s)
  | .ok _ => (.ok (), { s with paused := true })

/-- `unpause` (`lib.rs` lines 447-457). -/
def unpause (s : SplitPayment) (caller : AccountId) :
    Except Error Unit × SplitPayment :=
  match ensure_owner s caller with
  | .error e => (.error e, s)
  | .ok _ => (.ok (), { s with paused := false })

/-- `transfer_ownership` (`lib.rs` lines 460-465). -/
def transfer_ownership (s : SplitPayment) (caller newOwner : AccountId) :
    Except Error Unit × SplitPayment :=
  match ensure_owner s caller with
  | .error e => (.error e, s)
  | .ok _ => (.ok (), { s with owner := newOwner })

/-- Query `get_owner` (`lib.rs` lines 470-473). -/
def get_owner (s : SplitPayment) : AccountId := s.owner

/-- Query `is_manager` (`lib.rs` lines 476-479). -/
def is_manager (s : SplitPayment) (account : AccountId) : Bool :=
  s.managers account

/-- Query `get_beneficiaries` (`lib.rs` lines 482-485). -/
def get_beneficiaries (s : SplitPayment) : List Beneficiary :=
  s.beneficiaries

/-- Query `get_beneficiary` (`lib.rs` lines 488-491). -/
def get_beneficiary (s : SplitPayment) (account : AccountId) : Option Beneficiary :=
  s.beneficiaries.find? (fun b => b.account == account)

/-- Query `get_approval` (`lib.rs` lines 494-499).  Note: no expiry filtering. -/
def get_approval (s : SplitPayment) (owner spender : AccountId) : Balance :=
  match s.approvals owner spender with
  | some a => a.amount
  | none => 0

/-- Query `get_total_shares` (`lib.rs` lines 502-505). -/
def get_total_shares (s : SplitPayment) : Nat := s.total_shares

/-- Query `is_paused` (`lib.rs` lines 508-511). -/
def is_paused (s : SplitPayment) : Bool := s.paused

/-- Query `get_stats` (`lib.rs` lines 514-521); the environment balance is an input. -/
def get_stats (s : SplitPayment) (envBalance : Balance) : Balance × Balance × Balance :=
  (s.total_received, s.total_distributed, envBalance)

/-- One public mutating call, with all environment inputs made explicit. -/
inductive Op where
  | receive_payment (caller : AccountId) (value : Balance)
  | add_beneficiary (caller account : AccountId) (share : Nat)
  | remove_beneficiary (caller account : AccountId) (xferOk : Bool)
  | approve (caller spender : AccountId) (amount : Balance) (expires_at : Option Nat)
  | revoke_approval (caller spender : AccountId)
  | withdraw_from (caller beneficiary : AccountId) (amount : Balance) (now : Nat) (xferOk : Bool)
  | withdraw (caller : AccountId) (amount : Balance) (xferOk : Bool)
  | add_manager (caller manager : AccountId)
  | remove_manager (caller manager : AccountId)
  | pause (caller : AccountId)
  | unpause (caller : AccountId)
  | transfer_ownership (caller newOwner : AccountId)
deriving DecidableEq

/-- Execute one call. -/
def exec (s : SplitPayment) : Op → Except Error Unit × SplitPayment
  | .receive_payment c v => receive_payment s c v
  | .add_beneficiary c a sh => add_beneficiary s c a sh
  | .remove_beneficiary c a x => remove_beneficiary s c a x
  | .approve c sp am e => approve s c sp am e
  | .revoke_approval c sp => revoke_approval s c sp
  | .withdraw_from c b am n x =>
    ((withdraw_from s c b am n x).1, (withdraw_from s c b am n x).2.1)
  | .withdraw c am x => withdraw s c am x
  | .add_manager c m => add_manager s c m
  | .remove_manager c m => remove_manager s c m
  | .pause c => pause s c
  | .unpause c => unpause s c
  | .transfer_ownership c o => transfer_ownership s c o

/-- Execute a sequence of calls (each call's post-state feeds the next,
whether the call succeeded or returned an error). -/
def execList (s : SplitPayment) : List Op → SplitPayment
  | [] => s
  | op :: rest => execList (exec s op).2 rest

/-- Sum of `share_percentage` over a beneficiary list. -/
def sumShares (l : List Beneficiary) : Nat :=
  (l.map Beneficiary.share_percentage).sum

/-- Is this call an `add_beneficiary` or `remove_beneficiary`? -/
def isAddRemove : Op → Bool
  | .add_beneficiary _ _ _ => true
  | .remove_beneficiary _ _ _ => true
  | _ => false

/-- Is this call gated by `ensure_not_paused` in the source? (All mutating
calls except role/pause administration and `revoke_approval`.) -/
def isGated : Op → Bool
  | .receive_payment _ _ => true
  | .add_beneficiary _ _ _ => true
  | .remove_beneficiary _ _ _ => true
  | .approve _ _ _ _ => true
  | .withdraw_from _ _ _ _ _ => true
  | .withdraw _ _ _ => true
  | _ => false

/-- Does this call avoid `approve` with a zero amount? -/
def noZeroApprove : Op → Bool
  | .approve _ _ am _ => decide (am ≠ 0)
  | _ => true

/-- No stored approval record has a zero amount. -/
def NoZeroApproval (s : SplitPayment) : Prop :=
  ∀ a b ap, s.approvals a b = some ap → ap.amount ≠ 0

/-- The stored `total_shares` agrees with the ledger and is within bounds. -/
def ShareInv (s : SplitPayment) : Prop :=
  s.total_shares = sumShares s.beneficiaries ∧ sumShares s.beneficiaries ≤ 100

/-! ### Concrete states used in the scenario checks -/

/-- Owner 5 adds beneficiary 1 (Alice) with a 50% share (Scenario A prefix). -/
def stateA : SplitPayment := execList (new 5) [.add_beneficiary 5 1 50]

/-- A paused contract holding a live approval (1 approved 2 for 40). -/
def statePaused : SplitPayment :=
  execList (new 5) [.add_beneficiary 5 1 50, .approve 1 2 40 none, .pause 5]

/-- A single beneficiary with a 2% share. -/
def stateShare2 : SplitPayment := execList (new 5) [.add_beneficiary 5 1 2]

/-- Scenario C prefix: beneficiary 1 (100% share) holds 100 units and has
approved spender 3 for 40 with no expiry. -/
def stateScenC : SplitPayment :=
  execList (new 5) [.add_beneficiary 5 1 100, .receive_payment 9 100, .approve 1 3 40 none]

/-- Scenario C after the first delegated withdrawal of 25. -/
def stateScenC2 : SplitPayment := execList stateScenC [.withdraw_from 3 1 25 0 true]

/-- Beneficiary 1 approved spender 2 for 7 with expiry timestamp 0 (already past). -/
def stateExpired : SplitPayment :=
  execList (new 5) [.add_beneficiary 5 1 50, .approve 1 2 7 (some 0)]

/-- Beneficiary 1 calls `approve` with amount 0. -/
def stateZeroApproval : SplitPayment :=
  execList (new 5) [.add_beneficiary 5 1 50, .approve 1 2 0 none]

/-- Three beneficiaries with shares 50/30/20. -/
def stateThree : SplitPayment :=
  execList (new 5)
    [.add_beneficiary 5 1 50, .add_beneficiary 5 2 30, .add_beneficiary 5 3 20]

/-- An operation sequence that consumes an approval exactly to zero. -/
def opsNoZero : List Op :=
  [.add_beneficiary 5 1 100, .receive_payment 9 100, .approve 1 3 40 none,
    .withdraw_from 3 1 40 0 true]

/-! ### Helper lemmas about `position`, `getBen` and `sumShares` -/

theorem position_spec {p : Beneficiary → Bool} :
    ∀ {l : List Beneficiary} {i : Nat}, position p l = some i →
      i < l.length ∧ p (getBen l i) = true := by
  intro l
  induction l with
  | nil => intro i h; simp [position] at h
  | cons b rest ih =>
    intro i h
    by_cases hb : p b
    · simp [position, hb] at h
      subst h
      simpa [getBen] using hb
    · simp [position, hb] at h
      obtain ⟨j, hj, rfl⟩ := h
      obtain ⟨h1, h2⟩ := ih hj
      exact ⟨by simpa using h1, by simpa [getBen] using h2⟩

theorem sumShares_nil : sumShares [] = 0 := rfl

theorem sumShares_cons (b : Beneficiary) (l : List Beneficiary) :
    sumShares (b :: l) = b.share_percentage + sumShares l := by
  simp [sumShares]

theorem sumShares_append (l : List Beneficiary) (b : Beneficiary) :
    sumShares (l ++ [b]) = sumShares l + b.share_percentage := by
  simp [sumShares]

theorem sumShares_set :
    ∀ (l : List Beneficiary) (i : Nat) (b' : Beneficiary), i < l.length →
      b'.share_percentage = (getBen l i).share_percentage →
      sumShares (l.set i b') = sumShares l
  | [], i, b', h, _ => by simp at h
  | b :: rest, 0, b', _, hs => by
    simp [getBen] at hs
    simp [List.set, sumShares_cons, hs]
  | b :: rest, i + 1, b', h, hs => by
    simp at h
    have := sumShares_set rest i b' h (by simpa [getBen] using hs)
    simp [List.set, sumShares_cons, this]

theorem sumShares_eraseIdx :
    ∀ (l : List Beneficiary) (i : Nat), i < l.length →
      sumShares l = (getBen l i).share_percentage + sumShares (l.eraseIdx i)
  | [], i, h => by simp at h
  | b :: rest, 0, _ => by simp [getBen, List.eraseIdx, sumShares_cons]
  | b :: rest, i + 1, h => by
    simp at h
    have := sumShares_eraseIdx rest i h
    simp [getBen, List.eraseIdx, sumShares_cons] at this ⊢
    omega

theorem sumShares_map_pending (l : List Beneficiary) (f : Beneficiary → Balance) :
    sumShares (l.map fun b => { b with pending_balance := f b }) = sumShares l := by
  induction l with
  | nil => rfl
  | cons b rest ih => simp [sumShares_cons, ih]

/-! ### Lemmas about the approvals mapping -/

theorem approvalsInsert_lookup {m : AccountId → AccountId → Option Approval}
    {k1 k2 a b : AccountId} {v ap : Approval}
    (h : approvalsInsert m k1 k2 v a b = some ap) : ap = v ∨ m a b = some ap := by
  unfold approvalsInsert at h
  split at h
  · exact Or.inl (Option.some_injective _ h).symm
  · exact Or.inr h

theorem approvalsRemove_lookup {m : AccountId → AccountId → Option Approval}
    {k1 k2 a b : AccountId} {ap : Approval}
    (h : approvalsRemove m k1 k2 a b = some ap) : m a b = some ap := by
  unfold approvalsRemove at h
  split at h
  · exact absurd h (by simp)
  · exact h

/-! ### Preservation of the share invariant -/


theorem ensure_not_paused_cases (s : SplitPayment) :
    (s.paused = false ∧ ensure_not_paused s = .ok ()) ∨
      (s.paused = true ∧ ensure_not_paused s = .error .ContractPaused) := by
  unfold ensure_not_paused
  cases hp : s.paused with
  | false => exact Or.inl ⟨rfl, by simp⟩
  | true => exact Or.inr ⟨rfl, by simp⟩

theorem ensure_owner_cases (s : SplitPayment) (c : AccountId) :
    ensure_owner s c = .ok () ∨ ensure_owner s c = .error .Unauthorized := by
  unfold ensure_owner
  split <;> simp

theorem ensure_manager_or_owner_cases (s : SplitPayment) (c : AccountId) :
    ensure_manager_or_owner s c = .ok () ∨
      ensure_manager_or_owner s c = .error .Unauthorized := by
  unfold ensure_manager_or_owner
  split <;> simp

/-- Both branches of a final transfer test carry the same post-state. -/
theorem snd_ite {c : Prop} [inst : Decidable c] (e1 e2 : Except Error Unit) (t : SplitPayment) :
    (if c then (e1, t) else (e2, t)).2 = t := by
  split <;> rfl

/-- Both branches of the transfer test in `withdraw_from` carry the same
post-state (the third component lists the issued transfer requests). -/
theorem state_ite3 {c : Prop} [inst : Decidable c] (e1 e2 : Except Error Unit)
    (t : SplitPayment) (l1 l2 : List TransferRequest) :
    (if c then (e1, t, l1) else (e2, t, l2)).2.1 = t := by
  split <;> rfl

theorem shareInv_ite {c : Prop} [inst : Decidable c] {t1 t2 : SplitPayment}
    (h1 : ShareInv t1) (h2 : ShareInv t2) : ShareInv (if c then t1 else t2) := by
  split <;> assumption

/-! ### Preservation of the share invariant by every operation -/

theorem shareInv_add_beneficiary {s : SplitPayment} (c a : AccountId) (sh : Nat)
    (h : ShareInv s) : ShareInv (add_beneficiary s c a sh).2 := by
  obtain ⟨h1, h2⟩ := h
  rcases ensure_not_paused_cases s with ⟨hp, h0⟩ | ⟨hp, h0⟩
  · rcases ensure_manager_or_owner_cases s c with h3 | h3
    · by_cases ha : a = 0
      · simp [add_beneficiary, h0, h3, ha]
        exact ⟨h1, h2⟩
      · by_cases hsh : sh = 0 ∨ satAdd8 s.total_shares sh > 100
        · simp [add_beneficiary, h0, h3, ha, hsh]
          exact ⟨h1, h2⟩
        · by_cases hdup : s.beneficiaries.any (fun b => b.account == a) = true
          · simp [add_beneficiary, h0, h3, ha, hsh, hdup]
            exact ⟨h1, h2⟩
          · have hle : s.total_shares + sh ≤ 100 := by
              rw [not_or] at hsh
              obtain ⟨-, hsh2⟩ := hsh
              unfold satAdd8 at hsh2
              omega
            simp [add_beneficiary, h0, h3, ha, hsh, hdup]
            refine ⟨?_, ?_⟩ <;> simp [sumShares_append, satAdd8] <;> omega
    · simp [add_beneficiary, h0, h3]
      exact ⟨h1, h2⟩
  · simp [add_beneficiary, h0]
    exact ⟨h1, h2⟩

theorem shareInv_remove_beneficiary {s : SplitPayment} (c a : AccountId) (x : Bool)
    (h : ShareInv s) : ShareInv (remove_beneficiary s c a x).2 := by
  obtain ⟨h1, h2⟩ := h
  rcases ensure_not_paused_cases s with ⟨hp, h0⟩ | ⟨hp, h0⟩
  · rcases ensure_manager_or_owner_cases s c with h3 | h3
    · cases hpos : position (fun b => b.account == a) s.beneficiaries with
      | none =>
        simp [remove_beneficiary, h0, h3, hpos]
        exact ⟨h1, h2⟩
      | some i =>
        obtain ⟨hlt, -⟩ := position_spec hpos
        have hsum := sumShares_eraseIdx s.beneficiaries i hlt
        simp [remove_beneficiary, h0, h3, hpos, snd_ite]
        refine ⟨?_, ?_⟩ <;> dsimp only <;> omega
    · simp [remove_beneficiary, h0, h3]
      exact ⟨h1, h2⟩
  · simp [remove_beneficiary, h0]
    exact ⟨h1, h2⟩

theorem shareInv_set_same {s : SplitPayment} {i : Nat} {b1 : Beneficiary}
    (hlt : i < s.beneficiaries.length)
    (hs : b1.share_percentage = (getBen s.beneficiaries i).share_percentage)
    (h : ShareInv s) : ShareInv { s with beneficiaries := s.beneficiaries.set i b1 } := by
  obtain ⟨h1, h2⟩ := h
  have := sumShares_set s.beneficiaries i b1 hlt hs
  refine ⟨?_, ?_⟩ <;> dsimp only <;> omega

theorem shareInv_withdraw {s : SplitPayment} (c : AccountId) (am : Balance) (x : Bool)
    (h : ShareInv s) : ShareInv (withdraw s c am x).2 := by
  rcases ensure_not_paused_cases s with ⟨hp, h0⟩ | ⟨hp, h0⟩
  · cases hpos : position (fun b => b.account == c) s.beneficiaries with
    | none => simpa [withdraw, h0, hpos] using h
    | some i =>
      obtain ⟨hlt, -⟩ := position_spec hpos
      by_cases hbal : (getBen s.beneficiaries i).pending_balance < am
      · simpa [withdraw, h0, hpos, hbal] using h
      · simp [withdraw, h0, hpos, hbal, snd_ite]
        exact shareInv_set_same hlt rfl h
  · simpa [withdraw, h0] using h

theorem shareInv_withdraw_from {s : SplitPayment} (c bn : AccountId) (am : Balance)
    (n : Nat) (x : Bool) (h : ShareInv s) : ShareInv (withdraw_from s c bn am n x).2.1 := by
  rcases ensure_not_paused_cases s with ⟨hp, h0⟩ | ⟨hp, h0⟩
  · cases hap : s.approvals bn c with
    | none => simpa [withdraw_from, h0, hap] using h
    | some ap =>
      by_cases hexp : (match ap.expires_at with
        | some e => decide (n > e)
        | none => false) = true
      · simpa [withdraw_from, h0, hap, hexp] using h
      · by_cases hamt : ap.amount < am
        · simpa [withdraw_from, h0, hap, hexp, hamt] using h
        · cases hpos : position (fun b => b.account == bn) s.beneficiaries with
          | none => simpa [withdraw_from, h0, hap, hexp, hamt, hpos] using h
          | some i =>
            obtain ⟨hlt, -⟩ := position_spec hpos
            by_cases hbal : (getBen s.beneficiaries i).pending_balance < am
            · simpa [withdraw_from, h0, hap, hexp, hamt, hpos, hbal] using h
            · simp [withdraw_from, h0, hap, hexp, hamt, hpos, hbal, state_ite3]
              apply shareInv_ite <;> exact shareInv_set_same hlt rfl h
  · simpa [withdraw_from, h0] using h

theorem shareInv_distribute_funds {s : SplitPayment} (am : Balance)
    (h : ShareInv s) : ShareInv (distribute_funds s am).2 := by
  obtain ⟨h1, h2⟩ := h
  unfold distribute_funds
  split
  · exact ⟨h1, h2⟩
  · refine ⟨?_, ?_⟩ <;> dsimp only <;> rw [sumShares_map_pending] <;> omega

theorem shareInv_receive_payment {s : SplitPayment} (c : AccountId) (v : Balance)
    (h : ShareInv s) : ShareInv (receive_payment s c v).2 := by
  have hd : ShareInv (distribute_funds { s with total_received := satAdd128 s.total_received v } v).2 :=
    shareInv_distribute_funds v ⟨h.1, h.2⟩
  rcases ensure_not_paused_cases s with ⟨hp, h0⟩ | ⟨hp, h0⟩
  · simp only [receive_payment, h0]
    split <;> rename_i s2 heq <;> (rw [heq] at hd; exact hd)
  · simpa [receive_payment, h0] using h

theorem shareInv_approve {s : SplitPayment} (c sp : AccountId) (am : Balance)
    (ea : Option Nat) (h : ShareInv s) : ShareInv (approve s c sp am ea).2 := by
  rcases ensure_not_paused_cases s with ⟨hp, h0⟩ | ⟨hp, h0⟩
  · by_cases hb : s.beneficiaries.any (fun b => b.account == c) = true
    · simp [approve, h0, hb]
      exact ⟨h.1, h.2⟩
    · simpa [approve, h0, hb] using h
  · simpa [approve, h0] using h

theorem shareInv_revoke_approval {s : SplitPayment} (c sp : AccountId)
    (h : ShareInv s) : ShareInv (revoke_approval s c sp).2 :=
  ⟨h.1, h.2⟩

theorem shareInv_add_manager {s : SplitPayment} (c m : AccountId) (h : ShareInv s) :
    ShareInv (add_manager s c m).2 := by
  rcases ensure_owner_cases s c with h0 | h0 <;> simp [add_manager, h0] <;> exact ⟨h.1, h.2⟩

theorem shareInv_remove_manager {s : SplitPayment} (c m : AccountId) (h : ShareInv s) :
    ShareInv (remove_manager s c m).2 := by
  rcases ensure_owner_cases s c with h0 | h0 <;> simp [remove_manager, h0] <;> exact ⟨h.1, h.2⟩

theorem shareInv_pause {s : SplitPayment} (c : AccountId) (h : ShareInv s) :
    ShareInv (pause s c).2 := by
  rcases ensure_owner_cases s c with h0 | h0 <;> simp [pause, h0] <;> exact ⟨h.1, h.2⟩

theorem shareInv_unpause {s : SplitPayment} (c : AccountId) (h : ShareInv s) :
    ShareInv (unpause s c).2 := by
  rcases ensure_owner_cases s c with h0 | h0 <;> simp [unpause, h0] <;> exact ⟨h.1, h.2⟩

theorem shareInv_transfer_ownership {s : SplitPayment} (c o : AccountId) (h : ShareInv s) :
    ShareInv (transfer_ownership s c o).2 := by
  rcases ensure_owner_cases s c with h0 | h0 <;> simp [transfer_ownership, h0] <;> exact ⟨h.1, h.2⟩

theorem shareInv_exec {s : SplitPayment} (op : Op) (h : ShareInv s) :
    ShareInv (exec s op).2 := by
  cases op with
  | receive_payment c v => exact shareInv_receive_payment c v h
  | add_beneficiary c a sh => exact shareInv_add_beneficiary c a sh h
  | remove_beneficiary c a x => exact shareInv_remove_beneficiary c a x h
  | approve c sp am ea => exact shareInv_approve c sp am ea h
  | revoke_approval c sp => exact shareInv_revoke_approval c sp h
  | withdraw_from c bn am n x => exact shareInv_withdraw_from c bn am n x h
  | withdraw c am x => exact shareInv_withdraw c am x h
  | add_manager c m => exact shareInv_add_manager c m h
  | remove_manager c m => exact shareInv_remove_manager c m h
  | pause c => exact shareInv_pause c h
  | unpause c => exact shareInv_unpause c h
  | transfer_ownership c o => exact shareInv_transfer_ownership c o h

theorem shareInv_new (o : AccountId) : ShareInv (new o) :=
  ⟨rfl, by simp [new, sumShares]⟩

theorem shareInv_execList :
    ∀ (ops : List Op) (s : SplitPayment), ShareInv s → ShareInv (execList s ops)
  | [], _, h => h
  | op :: rest, s, h => shareInv_execList rest (exec s op).2 (shareInv_exec op h)

/-! ### Preservation of the no-zero-amount-approval invariant -/

theorem noZero_insert {m : AccountId → AccountId → Option Approval} {k1 k2 : AccountId}
    {v : Approval} (hm : ∀ a b ap, m a b = some ap → ap.amount ≠ 0) (hv : v.amount ≠ 0) :
    ∀ a b ap, approvalsInsert m k1 k2 v a b = some ap → ap.amount ≠ 0 := by
  intro a b ap hap
  rcases approvalsInsert_lookup hap with rfl | h2
  · exact hv
  · exact hm a b ap h2

theorem noZero_remove {m : AccountId → AccountId → Option Approval} {k1 k2 : AccountId}
    (hm : ∀ a b ap, m a b = some ap → ap.amount ≠ 0) :
    ∀ a b ap, approvalsRemove m k1 k2 a b = some ap → ap.amount ≠ 0 :=
  fun a b ap hap => hm a b ap (approvalsRemove_lookup hap)

theorem noZero_add_beneficiary {s : SplitPayment} (c a : AccountId) (sh : Nat)
    (h : NoZeroApproval s) : NoZeroApproval (add_beneficiary s c a sh).2 := by
  rcases ensure_not_paused_cases s with ⟨hp, h0⟩ | ⟨hp, h0⟩
  · rcases ensure_manager_or_owner_cases s c with h3 | h3
    · by_cases ha : a = 0
      · simpa [add_beneficiary, h0, h3, ha] using h
      · by_cases hsh : sh = 0 ∨ satAdd8 s.total_shares sh > 100
        · simpa [add_beneficiary, h0, h3, ha, hsh] using h
        · by_cases hdup : s.beneficiaries.any (fun b => b.account == a) = true
          · simpa [add_beneficiary, h0, h3, ha, hsh, hdup] using h
          · simp [add_beneficiary, h0, h3, ha, hsh, hdup]
            exact fun a b ap hap => h a b ap hap
    · simpa [add_beneficiary, h0, h3] using h
  · simpa [add_beneficiary, h0] using h

theorem noZero_remove_beneficiary {s : SplitPayment} (c a : AccountId) (x : Bool)
    (h : NoZeroApproval s) : NoZeroApproval (remove_beneficiary s c a x).2 := by
  rcases ensure_not_paused_cases s with ⟨hp, h0⟩ | ⟨hp, h0⟩
  · rcases ensure_manager_or_owner_cases s c with h3 | h3
    · cases hpos : position (fun b => b.account == a) s.beneficiaries with
      | none => simpa [remove_beneficiary, h0, h3, hpos] using h
      | some i =>
        simp [remove_beneficiary, h0, h3, hpos, snd_ite]
        exact fun a b ap hap => h a b ap hap
    · simpa [remove_beneficiary, h0, h3] using h
  · simpa [remove_beneficiary, h0] using h

theorem noZero_distribute_funds {s : SplitPayment} (am : Balance)
    (h : NoZeroApproval s) : NoZeroApproval (distribute_funds s am).2 := by
  unfold distribute_funds
  split
  · exact h
  · exact fun a b ap hap => h a b ap hap

theorem noZero_receive_payment {s : SplitPayment} (c : AccountId) (v : Balance)
    (h : NoZeroApproval s) : NoZeroApproval (receive_payment s c v).2 := by
  have hd : NoZeroApproval (distribute_funds { s with total_received := satAdd128 s.total_received v } v).2 :=
    noZero_distribute_funds v (fun a b ap hap => h a b ap hap)
  rcases ensure_not_paused_cases s with ⟨hp, h0⟩ | ⟨hp, h0⟩
  · simp only [receive_payment, h0]
    split <;> rename_i s2 heq <;> (rw [heq] at hd; exact hd)
  · simpa [receive_payment, h0] using h

theorem noZero_approve {s : SplitPayment} (c sp : AccountId) (am : Balance)
    (ea : Option Nat) (ham : am ≠ 0) (h : NoZeroApproval s) :
    NoZeroApproval (approve s c sp am ea).2 := by
  rcases ensure_not_paused_cases s with ⟨hp, h0⟩ | ⟨hp, h0⟩
  · by_cases hb : s.beneficiaries.any (fun b => b.account == c) = true
    · simp [approve, h0, hb]
      exact fun a b ap hap => noZero_insert (fun a2 b2 ap2 hap2 => h a2 b2 ap2 hap2) ham a b ap hap
    · simpa [approve, h0, hb] using h
  · simpa [approve, h0] using h

theorem noZero_revoke_approval {s : SplitPayment} (c sp : AccountId)
    (h : NoZeroApproval s) : NoZeroApproval (revoke_approval s c sp).2 :=
  fun a b ap hap => h a b ap (approvalsRemove_lookup hap)

theorem noZero_withdraw_from {s : SplitPayment} (c bn : AccountId) (am : Balance)
    (n : Nat) (x : Bool) (h : NoZeroApproval s) :
    NoZeroApproval (withdraw_from s c bn am n x).2.1 := by
  rcases ensure_not_paused_cases s with ⟨hp, h0⟩ | ⟨hp, h0⟩
  · cases hap : s.approvals bn c with
    | none => simpa [withdraw_from, h0, hap] using h
    | some ap =>
      by_cases hexp : (match ap.expires_at with
        | some e => decide (n > e)
        | none => false) = true
      · simpa [withdraw_from, h0, hap, hexp] using h
      · by_cases hamt : ap.amount < am
        · simpa [withdraw_from, h0, hap, hexp, hamt] using h
        · cases hpos : position (fun b => b.account == bn) s.beneficiaries with
          | none => simpa [withdraw_from, h0, hap, hexp, hamt, hpos] using h
          | some i =>
            by_cases hbal : (getBen s.beneficiaries i).pending_balance < am
            · simpa [withdraw_from, h0, hap, hexp, hamt, hpos, hbal] using h
            · simp [withdraw_from, h0, hap, hexp, hamt, hpos, hbal, state_ite3]
              split
              · exact fun a b ap2 hap2 => h a b ap2 (approvalsRemove_lookup hap2)
              · next hne =>
                intro a b ap2 hap2
                rcases approvalsInsert_lookup hap2 with rfl | h2
                · exact hne
                · exact h a b ap2 h2
  · simpa [withdraw_from, h0] using h

theorem noZero_withdraw {s : SplitPayment} (c : AccountId) (am : Balance) (x : Bool)
    (h : NoZeroApproval s) : NoZeroApproval (withdraw s c am x).2 := by
  rcases ensure_not_paused_cases s with ⟨hp, h0⟩ | ⟨hp, h0⟩
  · cases hpos : position (fun b => b.account == c) s.beneficiaries with
    | none => simpa [withdraw, h0, hpos] using h
    | some i =>
      by_cases hbal : (getBen s.beneficiaries i).pending_balance < am
      · simpa [withdraw, h0, hpos, hbal] using h
      · simp [withdraw, h0, hpos, hbal, snd_ite]
        exact fun a b ap hap => h a b ap hap
  · simpa [withdraw, h0] using h

theorem noZero_add_manager {s : SplitPayment} (c m : AccountId) (h : NoZeroApproval s) :
    NoZeroApproval (add_manager s c m).2 := by
  rcases ensure_owner_cases s c with h0 | h0 <;> simp [add_manager, h0] <;>
    exact fun a b ap hap => h a b ap hap

theorem noZero_remove_manager {s : SplitPayment} (c m : AccountId) (h : NoZeroApproval s) :
    NoZeroApproval (remove_manager s c m).2 := by
  rcases ensure_owner_cases s c with h0 | h0 <;> simp [remove_manager, h0] <;>
    exact fun a b ap hap => h a b ap hap

theorem noZero_pause {s : SplitPayment} (c : AccountId) (h : NoZeroApproval s) :
    NoZeroApproval (pause s c).2 := by
  rcases ensure_owner_cases s c with h0 | h0 <;> simp [pause, h0] <;>
    exact fun a b ap hap => h a b ap hap

theorem noZero_unpause {s : SplitPayment} (c : AccountId) (h : NoZeroApproval s) :
    NoZeroApproval (unpause s c).2 := by
  rcases ensure_owner_cases s c with h0 | h0 <;> simp [unpause, h0] <;>
    exact fun a b ap hap => h a b ap hap

theorem noZero_transfer_ownership {s : SplitPayment} (c o : AccountId) (h : NoZeroApproval s) :
    NoZeroApproval (transfer_ownership s c o).2 := by
  rcases ensure_owner_cases s c with h0 | h0 <;> simp [transfer_ownership, h0] <;>
    exact fun a b ap hap => h a b ap hap

theorem noZero_exec {s : SplitPayment} {op : Op} (hop : noZeroApprove op = true)
    (h : NoZeroApproval s) : NoZeroApproval (exec s op).2 := by
  cases op with
  | receive_payment c v => exact noZero_receive_payment c v h
  | add_beneficiary c a sh => exact noZero_add_beneficiary c a sh h
  | remove_beneficiary c a x => exact noZero_remove_beneficiary c a x h
  | approve c sp am ea =>
    exact noZero_approve c sp am ea (of_decide_eq_true hop) h
  | revoke_approval c sp => exact noZero_revoke_approval c sp h
  | withdraw_from c bn am n x => exact noZero_withdraw_from c bn am n x h
  | withdraw c am x => exact noZero_withdraw c am x h
  | add_manager c m => exact noZero_add_manager c m h
  | remove_manager c m => exact noZero_remove_manager c m h
  | pause c => exact noZero_pause c h
  | unpause c => exact noZero_unpause c h
  | transfer_ownership c o => exact noZero_transfer_ownership c o h

theorem noZero_new (o : AccountId) : NoZeroApproval (new o) :=
  fun _ _ _ hap => Option.noConfusion hap

theorem noZero_execList :
    ∀ (ops : List Op) (s : SplitPayment), (∀ op ∈ ops, noZeroApprove op = true) →
      NoZeroApproval s → NoZeroApproval (execList s ops)
  | [], _, _, h => h
  | op :: rest, s, hops, h =>
    noZero_execList rest (exec s op).2
      (fun o ho => hops o (List.mem_cons_of_mem _ ho))
      (noZero_exec (hops op (List.mem_cons_self _ _)) h)

/-! ### Pause gating -/

theorem exec_paused {s : SplitPayment} (hp : s.paused = true) :
    ∀ {op : Op}, isGated op = true → exec s op = (.error .ContractPaused, s) := by
  have h0 : ensure_not_paused s = .error .ContractPaused := by
    simp [ensure_not_paused, hp]
  intro op hop
  cases op <;> simp [isGated] at hop <;>
    simp [exec, receive_payment, add_beneficiary, remove_beneficiary, approve,
      withdraw_from, withdraw, h0]

/-! ### The `NoFundsAvailable` error is never produced -/

theorem distribute_funds_fst (s : SplitPayment) (am : Balance) :
    (distribute_funds s am).1 = .ok () := by
  unfold distribute_funds
  split <;> rfl

theorem receive_payment_fst (s : SplitPayment) (c : AccountId) (v : Balance) :
    (receive_payment s c v).1 = .ok () ∨ (receive_payment s c v).1 = .error .ContractPaused := by
  rcases ensure_not_paused_cases s with ⟨hp, h0⟩ | ⟨hp, h0⟩
  · left
    have hd := distribute_funds_fst { s with total_received := satAdd128 s.total_received v } v
    rcases hdv : distribute_funds { s with total_received := satAdd128 s.total_received v } v with ⟨r, s2⟩
    rw [hdv] at hd
    simp only [] at hd
    subst hd
    simp [receive_payment, h0, hdv]
  · right
    simp [receive_payment, h0]

theorem nf_receive_payment (s : SplitPayment) (c : AccountId) (v : Balance) :
    (receive_payment s c v).1 ≠ .error .NoFundsAvailable := by
  rcases receive_payment_fst s c v with h | h <;> rw [h] <;> simp

theorem nf_add_beneficiary (s : SplitPayment) (c a : AccountId) (sh : Nat) :
    (add_beneficiary s c a sh).1 ≠ .error .NoFundsAvailable := by
  rcases ensure_not_paused_cases s with ⟨hp, h0⟩ | ⟨hp, h0⟩
  · rcases ensure_manager_or_owner_cases s c with h3 | h3
    · simp only [add_beneficiary, h0, h3]
      split_ifs <;> simp
    · simp [add_beneficiary, h0, h3]
  · simp [add_beneficiary, h0]

theorem nf_remove_beneficiary (s : SplitPayment) (c a : AccountId) (x : Bool) :
    (remove_beneficiary s c a x).1 ≠ .error .NoFundsAvailable := by
  rcases ensure_not_paused_cases s with ⟨hp, h0⟩ | ⟨hp, h0⟩
  · rcases ensure_manager_or_owner_cases s c with h3 | h3
    · cases hpos : position (fun b => b.account == a) s.beneficiaries with
      | none => simp [remove_beneficiary, h0, h3, hpos]
      | some i =>
        simp only [remove_beneficiary, h0, h3, hpos]
        split_ifs <;> simp
    · simp [remove_beneficiary, h0, h3]
  · simp [remove_beneficiary, h0]

theorem nf_approve (s : SplitPayment) (c sp : AccountId) (am : Balance) (ea : Option Nat) :
    (approve s c sp am ea).1 ≠ .error .NoFundsAvailable := by
  rcases ensure_not_paused_cases s with ⟨hp, h0⟩ | ⟨hp, h0⟩
  · simp only [approve, h0]
    split_ifs <;> simp
  · simp [approve, h0]

theorem nf_revoke_approval (s : SplitPayment) (c sp : AccountId) :
    (revoke_approval s c sp).1 ≠ .error .NoFundsAvailable := by
  simp [revoke_approval]

theorem nf_withdraw_from (s : SplitPayment) (c bn : AccountId) (am : Balance)
    (n : Nat) (x : Bool) : (withdraw_from s c bn am n x).1 ≠ .error .NoFundsAvailable := by
  rcases ensure_not_paused_cases s with ⟨hp, h0⟩ | ⟨hp, h0⟩
  · cases hap : s.approvals bn c with
    | none => simp [withdraw_from, h0, hap]
    | some ap =>
      cases hpos : position (fun b => b.account == bn) s.beneficiaries with
      | none =>
        simp only [withdraw_from, h0, hap, hpos]
        split_ifs <;> simp
      | some i =>
        simp only [withdraw_from, h0, hap, hpos]
        split_ifs <;> simp
  · simp [withdraw_from, h0]

theorem nf_withdraw (s : SplitPayment) (c : AccountId) (am : Balance) (x : Bool) :
    (withdraw s c am x).1 ≠ .error .NoFundsAvailable := by
  rcases ensure_not_paused_cases s with ⟨hp, h0⟩ | ⟨hp, h0⟩
  · cases hpos : position (fun b => b.account == c) s.beneficiaries with
    | none => simp [withdraw, h0, hpos]
    | some i =>
      simp only [withdraw, h0, hpos]
      split_ifs <;> simp
  · simp [withdraw, h0]

theorem nf_add_manager (s : SplitPayment) (c m : AccountId) :
    (add_manager s c m).1 ≠ .error .NoFundsAvailable := by
  rcases ensure_owner_cases s c with h0 | h0 <;> simp [add_manager, h0]

theorem nf_remove_manager (s : SplitPayment) (c m : AccountId) :
    (remove_manager s c m).1 ≠ .error .NoFundsAvailable := by
  rcases ensure_owner_cases s c with h0 | h0 <;> simp [remove_manager, h0]

theorem nf_pause (s : SplitPayment) (c : AccountId) :
    (pause s c).1 ≠ .error .NoFundsAvailable := by
  rcases ensure_owner_cases s c with h0 | h0 <;> simp [pause, h0]

theorem nf_unpause (s : SplitPayment) (c : AccountId) :
    (unpause s c).1 ≠ .error .NoFundsAvailable := by
  rcases ensure_owner_cases s c with h0 | h0 <;> simp [unpause, h0]

theorem nf_transfer_ownership (s : SplitPayment) (c o : AccountId) :
    (transfer_ownership s c o).1 ≠ .error .NoFundsAvailable := by
  rcases ensure_owner_cases s c with h0 | h0 <;> simp [transfer_ownership, h0]

theorem exec_ne_noFunds (s : SplitPayment) (op : Op) :
    (exec s op).1 ≠ .error .NoFundsAvailable := by
  cases op with
  | receive_payment c v => exact nf_receive_payment s c v
  | add_beneficiary c a sh => exact nf_add_beneficiary s c a sh
  | remove_beneficiary c a x => exact nf_remove_beneficiary s c a x
  | approve c sp am ea => exact nf_approve s c sp am ea
  | revoke_approval c sp => exact nf_revoke_approval s c sp
  | withdraw_from c bn am n x => exact nf_withdraw_from s c bn am n x
  | withdraw c am x => exact nf_withdraw s c am x
  | add_manager c m => exact nf_add_manager s c m
  | remove_manager c m => exact nf_remove_manager s c m
  | pause c => exact nf_pause s c
  | unpause c => exact nf_unpause s c
  | transfer_ownership c o => exact nf_transfer_ownership s c o

/-! ### Pointwise views of `map` and `set`, and rounding arithmetic -/

theorem getBen_map (f : Beneficiary → Beneficiary) :
    ∀ (l : List Beneficiary) (i : Nat), i < l.length → getBen (l.map f) i = f (getBen l i)
  | [], i, h => by simp at h
  | b :: rest, 0, _ => rfl
  | b :: rest, i + 1, h => by
    simp at h
    simpa [getBen] using getBen_map f rest i h

theorem getBen_set_self :
    ∀ (l : List Beneficiary) (i : Nat) (b1 : Beneficiary), i < l.length →
      getBen (l.set i b1) i = b1
  | [], i, _, h => by simp at h
  | b :: rest, 0, _, _ => rfl
  | b :: rest, i + 1, b1, h => by
    simp at h
    simpa [getBen, List.set] using getBen_set_self rest i b1 h

theorem length_map_pending (l : List Beneficiary) (f : Beneficiary → Balance) :
    (l.map fun b => { b with pending_balance := f b }).length = l.length := by
  simp

theorem share_le_sumShares {b : Beneficiary} :
    ∀ {l : List Beneficiary}, b ∈ l → b.share_percentage ≤ sumShares l := by
  intro l
  induction l with
  | nil => intro h; simp at h
  | cons hd rest ih =>
    intro h
    rcases List.mem_cons.mp h with rfl | hm
    · simp [sumShares_cons]
    · have := ih hm
      simp [sumShares_cons]
      omega

theorem shareSum_bounds (amount : Nat) :
    ∀ (l : List Beneficiary), (∀ b ∈ l, amount * b.share_percentage ≤ U128MAX) →
      amount * sumShares l ≤
          100 * (l.map fun b => shareAmount amount b.share_percentage).sum + 99 * l.length ∧
        100 * (l.map fun b => shareAmount amount b.share_percentage).sum ≤ amount * sumShares l := by
  intro l
  induction l with
  | nil => intro _; simp [sumShares]
  | cons b rest ih =>
    intro hb
    obtain ⟨ih1, ih2⟩ := ih fun x hx => hb x (List.mem_cons_of_mem _ hx)
    have hhd : amount * b.share_percentage ≤ U128MAX := hb b (List.mem_cons_self _ _)
    have hsa : shareAmount amount b.share_percentage = amount * b.share_percentage / 100 := by
      unfold shareAmount satMul128
      rw [min_eq_left hhd]
    have hdm := Nat.div_add_mod (amount * b.share_percentage) 100
    have hmlt : amount * b.share_percentage % 100 < 100 := Nat.mod_lt _ (by omega)
    have hmul : amount * (b.share_percentage + sumShares rest) =
        amount * b.share_percentage + amount * sumShares rest := by ring
    have hA : amount * b.share_percentage ≤ 100 * (amount * b.share_percentage / 100) + 99 := by
      omega
    constructor
    · simp only [sumShares_cons, List.map_cons, List.sum_cons, List.length_cons, hsa, hmul]
      refine le_trans (Nat.add_le_add hA ih1) (le_of_eq ?_)
      ring
    · have hB : 100 * (amount * b.share_percentage / 100) ≤ amount * b.share_percentage := by
        rw [Nat.mul_comm]
        exact Nat.div_mul_le_self _ _
      simp only [sumShares_cons, List.map_cons, List.sum_cons, List.length_cons, hsa, hmul]
      refine le_trans (le_of_eq (by ring)) (Nat.add_le_add hB ih2)

/-! ### Claim theorems -/

/-- C9: the stored `total_shares` field always equals the sum of
`share_percentage` over the beneficiaries vector, in the freshly constructed
contract and after every sequence of public operations. -/
theorem total_shares_eq_sumShares (o : AccountId) (ops : List Op) :
    (execList (new o) ops).total_shares = sumShares (execList (new o) ops).beneficiaries :=
  (shareInv_execList ops (new o) (shareInv_new o)).1

/-- C1: for every sequence of `add_beneficiary`/`remove_beneficiary` calls from
a fresh contract, the summed `share_percentage` never exceeds 100, and any
`add_beneficiary` call that would push the sum above 100 returns an error and
leaves the state completely unchanged. -/
theorem share_sum_le_100_and_overflow_rejected (o : AccountId) (ops : List Op)
    (_hops : ∀ op ∈ ops, isAddRemove op = true) :
    sumShares (execList (new o) ops).beneficiaries ≤ 100 ∧
      ∀ (c a : AccountId) (sh : Nat),
        sumShares (execList (new o) ops).beneficiaries + sh > 100 →
        ∃ e, add_beneficiary (execList (new o) ops) c a sh =
          (.error e, execList (new o) ops) := by
  obtain ⟨h1, h2⟩ := shareInv_execList ops (new o) (shareInv_new o)
  refine ⟨h2, ?_⟩
  intro c a sh hgt
  rcases ensure_not_paused_cases (execList (new o) ops) with ⟨hp, h0⟩ | ⟨hp, h0⟩
  · rcases ensure_manager_or_owner_cases (execList (new o) ops) c with h3 | h3
    · by_cases ha : a = 0
      · exact ⟨.InvalidBeneficiary, by simp [add_beneficiary, h0, h3, ha]⟩
      · have hsh : sh = 0 ∨ satAdd8 (execList (new o) ops).total_shares sh > 100 := by
          right
          unfold satAdd8
          omega
        exact ⟨.InvalidShare, by simp [add_beneficiary, h0, h3, ha, hsh]⟩
    · exact ⟨.Unauthorized, by simp [add_beneficiary, h0, h3]⟩
  · exact ⟨.ContractPaused, by simp [add_beneficiary, h0]⟩

theorem share_sum_le_100_and_overflow_rejected_witness :
    (∀ op ∈ [Op.add_beneficiary 5 1 50], isAddRemove op = true) ∧
      sumShares (execList (new 5) [Op.add_beneficiary 5 1 50]).beneficiaries ≤ 100 ∧
      ∃ e, add_beneficiary (execList (new 5) [Op.add_beneficiary 5 1 50]) 5 2 60 =
        (.error e, execList (new 5) [Op.add_beneficiary 5 1 50]) := by
  have h := share_sum_le_100_and_overflow_rejected 5 [Op.add_beneficiary 5 1 50] (by decide)
  exact ⟨by decide, h.1, h.2 5 2 60 (by decide)⟩

/-- C5 counterexample: `revoke_approval` is a state-mutating operation outside
the role/pause administration set, yet on a paused contract it succeeds and
deletes the stored approval instead of returning `ContractPaused`. -/
theorem revoke_approval_not_pause_gated_cex :
    is_paused statePaused = true ∧
      statePaused.approvals 1 2 = some ⟨2, 40, none⟩ ∧
      (revoke_approval statePaused 1 2).1 = .ok () ∧
      (revoke_approval statePaused 1 2).2.approvals 1 2 = none := by
  refine ⟨by decide, by decide, rfl, by decide⟩

/-- C5 amended: whenever the pause flag is set, every state-mutating operation
other than role/pause administration (`add_manager`, `remove_manager`, `pause`,
`unpause`, `transfer_ownership`) and other than `revoke_approval` returns
`ContractPaused` with the state unchanged, whatever its arguments — the pause
gate fires before any other check. -/
theorem paused_gated_ops_rejected (s : SplitPayment) (op : Op)
    (hp : is_paused s = true) (hop : isGated op = true) :
    exec s op = (.error .ContractPaused, s) :=
  exec_paused hp hop

theorem paused_gated_ops_rejected_witness :
    is_paused statePaused = true ∧ isGated (Op.add_beneficiary 5 9 10) = true ∧
      exec statePaused (Op.add_beneficiary 5 9 10) = (.error .ContractPaused, statePaused) :=
  ⟨by decide, by decide, paused_gated_ops_rejected statePaused _ (by decide) (by decide)⟩

/-- C8 counterexample: a beneficiary calling `approve` with amount 0 leaves a
stored approval record whose `amount` is 0, violating the claimed invariant. -/
theorem approve_zero_amount_cex :
    stateZeroApproval.approvals 1 2 = some ⟨2, 0, none⟩ ∧
      (⟨2, 0, none⟩ : Approval).amount = 0 := by
  refine ⟨by decide, rfl⟩

/-- C8 amended: after any sequence of operations from a fresh contract in which
`approve` is never called with amount 0, no stored approval record has a zero
amount (`withdraw_from` deletes a record rather than storing a zero remainder;
`approve` itself stores its argument verbatim, so zero-amount calls must be
excluded). -/
theorem no_zero_approval_invariant (o : AccountId) (ops : List Op)
    (hops : ∀ op ∈ ops, noZeroApprove op = true) :
    NoZeroApproval (execList (new o) ops) :=
  noZero_execList ops (new o) hops (noZero_new o)

theorem no_zero_approval_invariant_witness :
    (∀ op ∈ opsNoZero, noZeroApprove op = true) ∧
      NoZeroApproval (execList (new 5) opsNoZero) :=
  ⟨by decide, no_zero_approval_invariant 5 opsNoZero (by decide)⟩

/-- C4 counterexample: in `add_beneficiary` the share checks run before the
duplicate check, so adding an already-present account with share 0 yields
`InvalidShare`, while the claim demands `InvalidBeneficiary` for every
already-present account. -/
theorem add_beneficiary_error_order_cex :
    (stateA.beneficiaries.any fun b => b.account == 1) = true ∧
      (add_beneficiary stateA 5 1 0).1 = .error .InvalidShare ∧
      Error.InvalidShare ≠ Error.InvalidBeneficiary := by
  refine ⟨by decide, by decide, by decide⟩

/-- C4 amended: for a non-paused contract and an authorized caller,
`add_beneficiary` checks in order: a zero account yields `InvalidBeneficiary`;
otherwise a share of 0 or a share overflowing 100 yields `InvalidShare`;
otherwise a duplicate account yields `InvalidBeneficiary`; and every error
leaves the state unchanged (Scenario A follows: after Alice@50, Bob@60 is
`InvalidShare` with shares still 50). -/
theorem add_beneficiary_error_spec (s : SplitPayment) (c a : AccountId) (sh : Nat) :
    (∀ e, (add_beneficiary s c a sh).1 = .error e → (add_beneficiary s c a sh).2 = s) ∧
      (is_paused s = false → ensure_manager_or_owner s c = .ok () →
        ((a = 0 → add_beneficiary s c a sh = (.error .InvalidBeneficiary, s)) ∧
          (a ≠ 0 → (sh = 0 ∨ satAdd8 s.total_shares sh > 100) →
            add_beneficiary s c a sh = (.error .InvalidShare, s)) ∧
          (a ≠ 0 → ¬(sh = 0 ∨ satAdd8 s.total_shares sh > 100) →
            (s.beneficiaries.any fun b => b.account == a) = true →
            add_beneficiary s c a sh = (.error .InvalidBeneficiary, s)))) := by
  constructor
  · intro e he
    rcases ensure_not_paused_cases s with ⟨hp, h0⟩ | ⟨hp, h0⟩
    · rcases ensure_manager_or_owner_cases s c with h3 | h3
      · by_cases ha : a = 0
        · simp [add_beneficiary, h0, h3, ha]
        · by_cases hsh : sh = 0 ∨ satAdd8 s.total_shares sh > 100
          · simp [add_beneficiary, h0, h3, ha, hsh]
          · by_cases hdup : (s.beneficiaries.any fun b => b.account == a) = true
            · simp [add_beneficiary, h0, h3, ha, hsh, hdup]
            · simp [add_beneficiary, h0, h3, ha, hsh, hdup] at he
      · simp [add_beneficiary, h0, h3]
    · simp [add_beneficiary, h0]
  · intro hp h3
    have h0 : ensure_not_paused s = .ok () := by
      have hp2 : s.paused = false := hp
      simp [ensure_not_paused, hp2]
    refine ⟨?_, ?_, ?_⟩
    · intro ha
      simp [add_beneficiary, h0, h3, ha]
    · intro ha hsh
      simp [add_beneficiary, h0, h3, ha, hsh]
    · intro ha hsh hdup
      simp [add_beneficiary, h0, h3, ha, hsh, hdup]

theorem add_beneficiary_error_spec_witness :
    add_beneficiary stateA 5 2 60 = (.error .InvalidShare, stateA) ∧
      get_total_shares stateA = 50 := by
  have h := (add_beneficiary_error_spec stateA 5 2 60).2 (by decide) (by decide)
  exact ⟨h.2.1 (by decide) (by decide), by decide⟩

/-- C7 counterexample: `get_approval` applies no expiry filtering — with a
stored approval of amount 7 whose `expires_at` (timestamp 0) is already in the
past at time 1, it still returns 7 instead of the claimed 0. -/
theorem get_approval_expiry_cex :
    stateExpired.approvals 1 2 = some ⟨2, 7, some 0⟩ ∧ (0 : Nat) < 1 ∧
      get_approval stateExpired 1 2 = 7 ∧ (7 : Nat) ≠ 0 := by
  refine ⟨by decide, by decide, by decide, by decide⟩

/-- C7 amended: `get_approval` returns 0 when no record is stored, and the
stored record's remaining amount otherwise — regardless of whether the record's
expiry timestamp lies in the past. -/
theorem get_approval_spec (s : SplitPayment) (o sp : AccountId) :
    (s.approvals o sp = none → get_approval s o sp = 0) ∧
      ∀ ap, s.approvals o sp = some ap → get_approval s o sp = ap.amount := by
  constructor
  · intro h
    simp [get_approval, h]
  · intro ap h
    simp [get_approval, h]

theorem get_approval_spec_witness :
    get_approval stateExpired 1 2 = 7 ∧ get_approval stateExpired 3 4 = 0 :=
  ⟨(get_approval_spec stateExpired 1 2).2 ⟨2, 7, some 0⟩ (by decide),
    (get_approval_spec stateExpired 3 4).1 (by decide)⟩

/-- C2 counterexample: `distribute_funds` computes the per-beneficiary share
with a saturating multiplication, so for a beneficiary with share 2 and amount
`2^128 - 1` it credits `floor((2^128-1)/100)` — not the claimed
`floor(amount * share_percentage / 100) = floor((2^128-1)*2/100)`. -/
theorem distribute_share_formula_cex :
    (getBen (distribute_funds stateShare2 U128MAX).2.beneficiaries 0).pending_balance =
        U128MAX / 100 ∧
      U128MAX / 100 ≠ satAdd128 0 (U128MAX * 2 / 100) := by
  refine ⟨by decide, by decide⟩

/-- C2 amended: `distribute_funds` always succeeds; with an empty ledger or
`total_shares = 0` the state is completely unchanged (the amount is absorbed);
otherwise every beneficiary's `pending_balance` grows (saturating) by
`floor(saturating_mul(amount, share_percentage) / 100)` and `total_distributed`
grows (saturating) by the full input amount, not by the sum actually
credited. -/
theorem distribute_funds_spec (s : SplitPayment) (amount : Balance) :
    (distribute_funds s amount).1 = .ok () ∧
      ((s.beneficiaries = [] ∨ s.total_shares = 0) → (distribute_funds s amount).2 = s) ∧
      (s.beneficiaries ≠ [] → s.total_shares ≠ 0 →
        ((distribute_funds s amount).2.beneficiaries.length = s.beneficiaries.length ∧
          (∀ i, i < s.beneficiaries.length →
            getBen (distribute_funds s amount).2.beneficiaries i =
              { getBen s.beneficiaries i with
                  pending_balance := satAdd128 (getBen s.beneficiaries i).pending_balance
                    (shareAmount amount (getBen s.beneficiaries i).share_percentage) }) ∧
          (distribute_funds s amount).2.total_distributed =
            satAdd128 s.total_distributed amount ∧
          (distribute_funds s amount).2.total_received = s.total_received)) := by
  by_cases hc : s.beneficiaries.isEmpty = true ∨ s.total_shares = 0
  · have hd : distribute_funds s amount = (.ok (), s) := by
      simp only [distribute_funds]
      rw [if_pos hc]
    refine ⟨by rw [hd], fun _ => by rw [hd], ?_⟩
    intro hne hts
    exfalso
    rcases hc with hc | hc
    · exact hne (List.isEmpty_iff.mp hc)
    · exact hts hc
  · have hd : (distribute_funds s amount) =
        (.ok (), { s with
          beneficiaries := s.beneficiaries.map fun b =>
            { b with pending_balance :=
                       satAdd128 b.pending_balance (shareAmount amount b.share_percentage) }
          total_distributed := satAdd128 s.total_distributed amount }) := by
      simp only [distribute_funds]
      rw [if_neg hc]
    refine ⟨by rw [hd], ?_, ?_⟩
    · intro hicase
      exfalso
      rcases hicase with hi | hi
      · exact hc (Or.inl (by simp [hi]))
      · exact hc (Or.inr hi)
    · intro hne hts
      rw [hd]
      refine ⟨by simp, ?_, rfl, rfl⟩
      intro i hi
      exact getBen_map _ s.beneficiaries i hi

theorem distribute_funds_spec_witness :
    getBen (distribute_funds stateThree 7).2.beneficiaries 0 =
      { getBen stateThree.beneficiaries 0 with
          pending_balance := satAdd128 (getBen stateThree.beneficiaries 0).pending_balance
            (shareAmount 7 (getBen stateThree.beneficiaries 0).share_percentage) } :=
  (((distribute_funds_spec stateThree 7).2.2 (by decide) (by decide)).2.1) 0 (by decide)

/-- C6 counterexample: the claimed rounding bound fails both for a ledger whose
shares sum below 100 (one beneficiary with share 1, amount 100: loss 99 ≥ 1)
and, through mul saturation, for a full-share ledger at amount `2^128 - 1`. -/
theorem rounding_bound_cex :
    (sumShares [⟨1, 1, 0, 0⟩] = 1 ∧
        ¬(100 - (List.map (fun b => shareAmount 100 b.share_percentage)
            [(⟨1, 1, 0, 0⟩ : Beneficiary)]).sum <
          ([⟨1, 1, 0, 0⟩] : List Beneficiary).length)) ∧
      (sumShares [⟨1, 100, 0, 0⟩] = 100 ∧
        ¬(U128MAX - (List.map (fun b => shareAmount U128MAX b.share_percentage)
            [(⟨1, 100, 0, 0⟩ : Beneficiary)]).sum <
          ([⟨1, 100, 0, 0⟩] : List Beneficiary).length)) := by
  refine ⟨⟨by decide, by decide⟩, ⟨by decide, by decide⟩⟩

/-- C6 amended: for every ledger whose shares sum to exactly 100 and every
amount small enough that `amount * share` cannot saturate
(`amount * 100 ≤ 2^128 - 1`), the floor-division loss
`amount - Σ floor(amount * share_percentage / 100)` is strictly less than the
number of beneficiaries. -/
theorem rounding_bound (bs : List Beneficiary) (amount : Nat)
    (hsum : sumShares bs = 100) (hno : amount * 100 ≤ U128MAX) :
    amount - (List.map (fun b => shareAmount amount b.share_percentage) bs).sum <
      bs.length := by
  have hbound : ∀ b ∈ bs, amount * b.share_percentage ≤ U128MAX := by
    intro b hm
    have hle : b.share_percentage ≤ 100 := hsum ▸ share_le_sumShares hm
    calc amount * b.share_percentage ≤ amount * 100 := Nat.mul_le_mul_left amount hle
      _ ≤ U128MAX := hno
  obtain ⟨h1, h2⟩ := shareSum_bounds amount bs hbound
  rw [hsum] at h1 h2
  have hlen : 1 ≤ bs.length := by
    cases hbs : bs with
    | nil => rw [hbs] at hsum; simp [sumShares] at hsum
    | cons hd tl => simp
  omega

theorem rounding_bound_witness :
    sumShares [⟨1, 50, 0, 0⟩, ⟨2, 30, 0, 0⟩, ⟨3, 20, 0, 0⟩] = 100 ∧
      (7 : Nat) * 100 ≤ U128MAX ∧
      7 - (List.map (fun b => shareAmount 7 b.share_percentage)
          [(⟨1, 50, 0, 0⟩ : Beneficiary), ⟨2, 30, 0, 0⟩, ⟨3, 20, 0, 0⟩]).sum <
        ([⟨1, 50, 0, 0⟩, ⟨2, 30, 0, 0⟩, ⟨3, 20, 0, 0⟩] : List Beneficiary).length :=
  ⟨by decide, by decide, rounding_bound _ 7 (by decide) (by decide)⟩

theorem beneficiaries_ite {c : Prop} [inst : Decidable c] (t1 t2 : SplitPayment) :
    (if c then t1 else t2).beneficiaries = if c then t1.beneficiaries else t2.beneficiaries := by
  split <;> rfl

/-- C3: a delegated withdrawal by a spender holding an unexpired approval with
enough remaining allowance, against a beneficiary with enough pending balance,
succeeds: it decrements the beneficiary's `pending_balance` by the amount,
increments `total_withdrawn` by the amount (saturating, as all `u128`
arithmetic in this contract), decrements the approval's remaining amount,
deleting the record exactly when the remainder is zero, and issues exactly one
transfer request paying the amount to the caller — the spender, not the
beneficiary; and when the remaining allowance is smaller than the requested
amount the call returns `InsufficientAllowance` with the state unchanged and no
transfer issued (Scenario C). -/
theorem withdraw_from_spec :
    (∀ (s : SplitPayment) (c bn : AccountId) (amount : Balance) (n : Nat)
        (ap : Approval) (i : Nat),
      is_paused s = false →
      s.approvals bn c = some ap →
      (∀ e, ap.expires_at = some e → n ≤ e) →
      amount ≤ ap.amount →
      position (fun b => b.account == bn) s.beneficiaries = some i →
      amount ≤ (getBen s.beneficiaries i).pending_balance →
      ((withdraw_from s c bn amount n true).1 = .ok () ∧
        getBen (withdraw_from s c bn amount n true).2.1.beneficiaries i =
          { getBen s.beneficiaries i with
              pending_balance := (getBen s.beneficiaries i).pending_balance - amount,
              total_withdrawn :=
                satAdd128 (getBen s.beneficiaries i).total_withdrawn amount } ∧
        (withdraw_from s c bn amount n true).2.1.approvals bn c =
          (if ap.amount - amount = 0 then none
            else some { ap with amount := ap.amount - amount }) ∧
        (withdraw_from s c bn amount n true).2.2 = [⟨c, amount⟩])) ∧
    (∀ (s : SplitPayment) (c bn : AccountId) (amount : Balance) (n : Nat) (ap : Approval),
      is_paused s = false →
      s.approvals bn c = some ap →
      (∀ e, ap.expires_at = some e → n ≤ e) →
      ap.amount < amount →
      withdraw_from s c bn amount n true = (.error .InsufficientAllowance, s, [])) := by
  have hexpired : ∀ (ap : Approval) (n : Nat), (∀ e, ap.expires_at = some e → n ≤ e) →
      (match ap.expires_at with
        | some e => decide (n > e)
        | none => false) = false := by
    intro ap n hexp
    cases hea : ap.expires_at with
    | none => rfl
    | some e =>
      have := hexp e hea
      simp
      omega
  constructor
  · intro s c bn amount n ap i hp hap hexp hamt hpos hbal
    have hp2 : s.paused = false := hp
    have h0 : ensure_not_paused s = .ok () := by simp [ensure_not_paused, hp2]
    have hexp2 := hexpired ap n hexp
    have hamt2 : ¬(ap.amount < amount) := Nat.not_lt.mpr hamt
    have hbal2 : ¬((getBen s.beneficiaries i).pending_balance < amount) := Nat.not_lt.mpr hbal
    obtain ⟨hlt, -⟩ := position_spec hpos
    refine ⟨?_, ?_, ?_, ?_⟩
    · simp [withdraw_from, h0, hap, hexp2, hamt2, hpos, hbal2]
    · simp [withdraw_from, h0, hap, hexp2, hamt2, hpos, hbal2, beneficiaries_ite]
      rw [getBen_set_self _ _ _ hlt]
    · by_cases hz : ap.amount - amount = 0
      · simp [withdraw_from, h0, hap, hexp2, hamt2, hpos, hbal2, hz, approvalsRemove]
      · simp [withdraw_from, h0, hap, hexp2, hamt2, hpos, hbal2, hz, approvalsInsert]
    · simp [withdraw_from, h0, hap, hexp2, hamt2, hpos, hbal2]
  · intro s c bn amount n ap hp hap hexp hamt
    have hp2 : s.paused = false := hp
    have h0 : ensure_not_paused s = .ok () := by simp [ensure_not_paused, hp2]
    have hexp2 := hexpired ap n hexp
    simp [withdraw_from, h0, hap, hexp2, hamt]

theorem withdraw_from_spec_witness :
    ((withdraw_from stateScenC 3 1 25 0 true).1 = .ok () ∧
      getBen (withdraw_from stateScenC 3 1 25 0 true).2.1.beneficiaries 0 = ⟨1, 100, 75, 25⟩ ∧
      (withdraw_from stateScenC 3 1 25 0 true).2.1.approvals 1 3 = some ⟨3, 15, none⟩ ∧
      (withdraw_from stateScenC 3 1 25 0 true).2.2 = [⟨3, 25⟩]) ∧
    withdraw_from stateScenC2 3 1 20 0 true = (.error .InsufficientAllowance, stateScenC2, []) := by
  constructor
  · have h := withdraw_from_spec.1 stateScenC 3 1 25 0 ⟨3, 40, none⟩ 0 (by decide) (by decide)
      (fun e he => Option.noConfusion he) (by decide) (by decide) (by decide)
    exact ⟨h.1, h.2.1.trans (by decide), h.2.2.1.trans (by decide), h.2.2.2⟩
  · exact withdraw_from_spec.2 stateScenC2 3 1 20 0 ⟨3, 15, none⟩ (by decide) (by decide)
      (fun e he => Option.noConfusion he) (by decide)

/-- C10: no public operation ever returns `NoFundsAvailable`; in particular a
registered beneficiary with zero pending balance calling `withdraw(0)` on an
unpaused contract (with the external transfer succeeding) gets `Ok`, not a
zero-balance error. -/
theorem no_noFunds_and_zero_withdraw_ok :
    (∀ (s : SplitPayment) (op : Op), (exec s op).1 ≠ .error .NoFundsAvailable) ∧
      (∀ (s : SplitPayment) (c : AccountId) (i : Nat),
        is_paused s = false →
        position (fun b => b.account == c) s.beneficiaries = some i →
        (getBen s.beneficiaries i).pending_balance = 0 →
        (withdraw s c 0 true).1 = .ok ()) := by
  constructor
  · exact exec_ne_noFunds
  · intro s c i hp hpos hpend
    have hp2 : s.paused = false := hp
    have h0 : ensure_not_paused s = .ok () := by simp [ensure_not_paused, hp2]
    simp [withdraw, h0, hpos, hpend]

theorem no_noFunds_and_zero_withdraw_ok_witness :
    (exec stateA (Op.withdraw 1 0 true)).1 ≠ .error .NoFundsAvailable ∧
      (withdraw stateA 1 0 true).1 = .ok () :=
  ⟨no_noFunds_and_zero_withdraw_ok.1 stateA _,
    no_noFunds_and_zero_withdraw_ok.2 stateA 1 0 (by decide) (by decide) (by decide)⟩
